import Mathlib

/-
  Verification development for gool (Online TV Recorder on Linux in Go).

  This file gives a shallow embedding, in Lean 4, of the parts of the gool
  sources that the specification talks about:
    - video records and their post-processing   (src/video.go)
    - the catalog merge rule                    (src/video.go, src/videolist.go)
    - cutlist header fetching and sorting       (src/cutlist.go)
    - cutlist detail fetching and parsing       (src/cutlist.go)
    - the cut stage and its join protocol       (src/cut.go, src/videolist.go)
    - the mkvmerge split-string construction    (src/cut.go)

  Modelling conventions:
    - Go strings are Lean `String`s; Go `int` is `Int`; Go `float64` values
      are modelled as exact rationals `ℚ` (the embedded code only compares
      them to zero, adds them, and formats them; all concrete inputs used in
      theorems are exactly representable, so no rounding behaviour is lost).
    - Go `error` values are `Option String` (`none` = nil error).
    - Filesystem and network effects are made explicit: functions return the
      list of paths passed to `os.Remove`, and take the outcome of each
      network request as an argument.
    - Values that the Go code obtains from `strconv.ParseFloat` / `Atoi`
      with the error ignored are taken as already-parsed numbers (parse
      failure leaves the Go zero value, hence `Option` fields whose `none`
      means "key absent" and whose payload is the parsed value, 0 for
      unparsable input).
-/

/-! ## Video records (src/video.go) -/

/-- Constants for video status (src/video.go:37-41). -/
def vidStatusEnc : String := "ENC"

/-- Status of a decoded video (src/video.go:39). -/
def vidStatusDec : String := "DEC"

/-- Status of a cut video (src/video.go:40). -/
def vidStatusCut : String := "CUT"

/-- Constants for video processing result (src/video.go:44-48). -/
def vidResultOK : String := "ERFOLG"

/-- Result value recorded on failure (src/video.go:46). -/
def vidResultErr : String := "FEHLER"

/-- Result value before any processing (src/video.go:47). -/
def vidResultNone : String := ""

/-- The fields of the `video` struct (src/video.go:65-72) that the claims
are about.  The progress-bar map and the attached cutlist pointer are not
part of the state the embedded functions inspect or update. -/
structure Video where
  key : String
  status : String
  res : String
  filePath : String
deriving DecidableEq, Repr

/-- The configuration fields (src/cfg.go) consumed by the embedded code. -/
structure Config where
  doCleanUp : Bool
  decDirPath : String
  cutDirPath : String
deriving DecidableEq, Repr

/-- Helper for Go `path.Ext`: the suffix of the final slash-separated
element beginning at its final dot, or the empty suffix if there is no
dot.  (Scans the component from the left, keeping the rightmost dot.) -/
def lastDotSuffix : List Char → Option (List Char)
| [] => none
| c :: cs =>
  match lastDotSuffix cs with
  | some r => some (r : List Char)
  | none => if c = '.' then some (c :: cs) else none

/-- Go `path.Ext`, as used in src/video.go:188,193. -/
def pathExt (s : String) : String :=
  match lastDotSuffix ((s.splitOn "/").getLastD "").toList with
  | some r => String.mk r
  | none => ""

/-- Embeds `video.postProcessing` (src/video.go:162-197).  Takes the error
of the preceding tool invocation (`vErr`, `none` = success) and whether the
cleanup `os.Remove` call would fail (`removeFails`).  Returns the updated
video, the list of paths passed to `os.Remove`, and the function's return
value (an error or `none`). -/
def postProcessing (cfg : Config) (removeFails : Bool) (v : Video)
    (vErr : Option String) : Video × List String × Option String :=
  -- src/video.go:166-169: on error, set result to FEHLER and return nil
  if vErr.isSome then ({ v with res := vidResultErr }, [], none)
  else
    -- src/video.go:172: set result to ERFOLG
    let v1 : Video := { v with res := vidResultOK }
    -- src/video.go:176-183: if cleanup is required, delete the old file;
    -- a failing Remove only sets the local err (and is logged)
    let removed : List String := if cfg.doCleanUp then [v.filePath] else []
    let remErr : Option String :=
      if cfg.doCleanUp && removeFails then some (v.filePath ++ " konnte nicht geloescht werden") else none
    -- src/video.go:186-190: ENC -> DEC, path into the Decoded dir, return nil
    if v1.status = vidStatusEnc then
      ({ v1 with status := vidStatusDec,
                 filePath := cfg.decDirPath ++ "/" ++ v1.key ++ pathExt v1.filePath },
       removed, none)
    -- src/video.go:191-194: DEC -> CUT, path into the Cut dir; falls through
    -- to `return err` (src/video.go:196), so a Remove failure is returned here
    else if v1.status = vidStatusDec then
      ({ v1 with status := vidStatusCut,
                 filePath := cfg.cutDirPath ++ "/" ++ v1.key ++ pathExt v1.filePath },
       removed, remErr)
    else (v1, removed, remErr)

/-! ## Catalog merge (src/video.go:329-351, src/videolist.go:242-255) -/

/-- Embeds `video.updateFromFile` (src/video.go:329-351): a second file for
an already-catalogued video has been scanned.  Returns the updated video and
the list of paths passed to `os.Remove`. -/
def updateFromFile (cfg : Config) (v : Video) (status filePath : String) :
    Video × List String :=
  -- src/video.go:333-335: nothing to do if both files are the same
  if filePath = v.filePath then (v, [])
  -- src/video.go:337-339: the new file wins if it is more advanced
  else if (v.status = vidStatusEnc && status ≠ vidStatusEnc)
       || (v.status = vidStatusDec && status = vidStatusCut) then
    ({ v with status := status, filePath := filePath }, [])
  -- src/video.go:340-350: otherwise, with cleanup enabled, the NEW file is deleted
  else
    (v, if cfg.doCleanUp then [filePath] else [])

/-- One step of the catalog scan (src/videolist.go:242-255): either update
the existing entry via `updateFromFile`, or append a fresh video.  The
catalog is an association list keyed by video key (the Go map, in scan
order).  Returns the updated catalog and the paths passed to `os.Remove`. -/
def scanFile (cfg : Config) (vl : List (String × Video))
    (key status filePath : String) : List (String × Video) × List String :=
  match vl.lookup key with
  | some v =>
    let (v', removed) := updateFromFile cfg v status filePath
    ((vl.map fun p => if p.1 = key then (key, v') else p), removed)
  | none =>
    (vl ++ [(key, { key := key, status := status, res := vidResultNone,
                    filePath := filePath })], [])

/-! ## Cutlist headers (src/cutlist.go:269-369) -/

/-- The `clHeader` struct (src/cutlist.go:63-66): a candidate cutlist's
rating-derived score and its id. -/
structure ClHeader where
  score : ℚ
  id : String
deriving DecidableEq, Repr

/-- The guarantee Go's `sort.Sort` gives for `clHeaders` with the `Less`
method of src/cutlist.go:71 (`clhs[i].score > clhs[j].score`): the output
is a permutation of the input that is sorted with respect to `Less`, i.e.
pairwise descending by score.  `sort.Sort` is Go's unstable sort, so the
order of equal-score headers in the output is not otherwise constrained;
this relation is exactly the documented contract of the call at
src/cutlist.go:360. -/
def goSortSpec (l l' : List ClHeader) : Prop :=
  l'.Perm l ∧ l'.Pairwise (fun a b => b.score ≤ a.score)

/-- The result relation of the tail of `fetchCutlistHeaders`
(src/cutlist.go:359-368): some `sort.Sort` outcome of the parsed headers,
projected to ids. -/
def headersOutRel (hs : List ClHeader) (out : List String) : Prop :=
  ∃ hs', goSortSpec hs hs' ∧ out = hs'.map ClHeader.id

/-- XML tokens, as produced by `encoding/xml` over the header response
(src/cutlist.go:310-357): start elements, end elements and character data. -/
inductive XTok where
| startEl (name : String)
| endEl (name : String)
| charData (s : String)
deriving DecidableEq, Repr

/-- State of the token loop of `fetchCutlistHeaders` (src/cutlist.go:277-357):
the current relevant element name `el`, the per-cutlist value map
`clRelVals` (`none` models the Go nil map before the first CUTLIST start
element), and the accumulated header list `clhs`. -/
structure HdrState where
  el : String
  vals : Option (List (String × String))
  clhs : List ClHeader
deriving DecidableEq, Repr

/-- Models Go `strings.ToUpper` for the ASCII element names compared in
`fetchCutlistHeaders` (src/cutlist.go:323-341). -/
def toUpperAscii (s : String) : String :=
  String.mk (s.toList.map fun c =>
    if 97 ≤ c.toNat && c.toNat ≤ 122 then Char.ofNat (c.toNat - 32) else c)

/-- Map update for `clRelVals[el] = ...` (src/cutlist.go:354). -/
def updAssoc (k v : String) : List (String × String) → List (String × String)
| [] => [(k, v)]
| (k', v') :: r => if k' = k then (k, v) :: r else (k', v') :: updAssoc k v r

/-- Go map read with zero value: `clRelVals[tag]` (src/cutlist.go:343-344)
yields the empty string when the key is absent or the map is nil. -/
def lookupD (k : String) (m : Option (List (String × String))) : String :=
  match m with
  | none => ""
  | some l => match l.lookup k with
    | some v => v
    | none => ""

/-- One iteration of the token loop of `fetchCutlistHeaders`
(src/cutlist.go:319-356).  `pf` stands for `strconv.ParseFloat` with the
error ignored (unparsable input yields 0).  A `charData` token arriving
while `clRelVals` is still nil is modelled as a no-op (the Go code would
panic there; no spec claim touches this corner). -/
def hdrStep (pf : String → ℚ) (st : HdrState) (t : XTok) : HdrState :=
  match t with
  | .startEl n =>
    let N := toUpperAscii n
    -- src/cutlist.go:322-328: remember a relevant element name
    let el' := if N = "ID" || N = "RATING" then N else st.el
    -- src/cutlist.go:330-333: a new cutlist starts, create a fresh value map
    if N = "CUTLIST" then { el := el', vals := some [], clhs := st.clhs }
    else { st with el := el' }
  | .endEl n =>
    let N := toUpperAscii n
    -- src/cutlist.go:336-339: a relevant element ends
    let el' := if N = st.el then "" else st.el
    -- src/cutlist.go:341-349: a cutlist ends: build the header, keep it if id nonempty
    if N = "CUTLIST" then
      let idv := lookupD "ID" st.vals
      let sc := pf (lookupD "RATING" st.vals)
      { el := el', vals := st.vals,
        clhs := if idv = "" then st.clhs else st.clhs ++ [{ score := sc, id := idv }] }
    else { st with el := el' }
  | .charData s =>
    -- src/cutlist.go:350-355: store the value of a relevant element
    if st.el = "" then st
    else { st with vals := st.vals.map (updAssoc st.el s) }

/-- The header list parsed from the XML token stream (the loop of
src/cutlist.go:310-357, started from empty state). -/
def parseHeaders (pf : String → ℚ) (toks : List XTok) : List ClHeader :=
  (toks.foldl (hdrStep pf) { el := "", vals := none, clhs := [] }).clhs

/-- Outcome of the header request in `fetchCutlistHeaders`: the `http.Get`
can fail (src/cutlist.go:295-298), the body read can fail
(src/cutlist.go:301-306), or a token stream is obtained which either ends
at EOF or aborts with a decoding error (`decodeErr`, src/cutlist.go:311-317). -/
inductive HeaderNet where
| getErr
| readErr
| resp (toks : List XTok) (decodeErr : Bool)

/-- Whether the header fetch hits one of the three failure paths the spec
names: network failure, read failure, or XML decoding failure. -/
def headerFetchFails : HeaderNet → Prop
| .getErr => True
| .readErr => True
| .resp _ derr => derr = true

/-- Result relation of `fetchCutlistHeaders` (src/cutlist.go:269-369).  On
`http.Get` error the still-nil `ids` slice is returned (src/cutlist.go:297),
likewise on read error (src/cutlist.go:305) and on a token decoding error
(src/cutlist.go:316, `ids` is only filled after the loop, so it is still
empty there).  On success the parsed headers are sorted by `sort.Sort` and
projected to ids. -/
def fetchCutlistHeadersRel (pf : String → ℚ) : HeaderNet → List String → Prop
| .getErr, out => out = []
| .readErr, out => out = []
| .resp _ true, out => out = []
| .resp toks false, out => headersOutRel (parseHeaders pf toks) out

/-- The three headers of the spec's worked example, `[{A,5},{B,9},{C,9}]`. -/
def hdrA : ClHeader := { score := 5, id := "A" }

/-- Header B of the worked example. -/
def hdrB : ClHeader := { score := 9, id := "B" }

/-- Header C of the worked example. -/
def hdrC : ClHeader := { score := 9, id := "C" }

/-- A token stream whose parse yields the worked example's headers in
response order A, B, C. -/
def exToks : List XTok :=
  [.startEl "cutlist", .startEl "id", .charData "A", .endEl "id",
   .startEl "rating", .charData "5", .endEl "rating", .endEl "cutlist",
   .startEl "cutlist", .startEl "id", .charData "B", .endEl "id",
   .startEl "rating", .charData "9", .endEl "rating", .endEl "cutlist",
   .startEl "cutlist", .startEl "id", .charData "C", .endEl "id",
   .startEl "rating", .charData "9", .endEl "rating", .endEl "cutlist"]

/-- A concrete stand-in for `strconv.ParseFloat` sufficient for `exToks`. -/
def pfEx : String → ℚ := fun s => if s = "5" then 5 else if s = "9" then 9 else 0

/-! ## Cutlist details (src/cutlist.go:44-58, 115-264) -/

/-- The `seg` struct (src/cutlist.go:44-49): one cut segment. -/
structure Seg where
  timeStart : ℚ
  timeDur : ℚ
  frameStart : Int
  frameDur : Int
deriving DecidableEq, Repr

/-- The `cutlist` struct (src/cutlist.go:50-58). -/
structure Cutlist where
  id : String
  app : String
  ratio : String
  fps : ℚ
  timeBased : Bool
  frameBased : Bool
  segs : List Seg
deriving DecidableEq, Repr

/-- One `[Cut<i>]` INI section of a detail document
(src/cutlist.go:217-238): each key optional, values already parsed
(`strconv` failure yields the Go zero value, so an unparsable value is
`some 0`). -/
structure CutSection where
  start : Option ℚ
  duration : Option ℚ
  startframe : Option Int
  durationframes : Option Int
deriving DecidableEq, Repr

/-- The `[general]` INI section of a detail document
(src/cutlist.go:176-207). -/
structure GeneralSec where
  ratio : Option String
  fps : Option ℚ
  app : Option String
  noofcuts : Option Int
deriving Repr

/-- A decoded detail document: its optional general section and its
indexed cut sections (`cuts i = none` models a missing `[Cut<i>]` section). -/
structure DetailDoc where
  general : Option GeneralSec
  cuts : Nat → Option CutSection

/-- Outcome of fetching one candidate's detail document: `http.Get` failure
(src/cutlist.go:157-160), body read failure (162-167), `ini.InsensitiveLoad`
failure (170-173), or a decoded document. -/
inductive DetailOutcome where
| netErr
| readErr
| iniErr
| doc (d : DetailDoc)

/-- The cut-reading loop of `fetchCutlistDetails` (src/cutlist.go:210-247),
with `fuel` iterations left and `i` the current cut index.  Accumulates the
segment list and the `timeBased` / `frameBased` flags.  A missing `[Cut<i>]`
section breaks out keeping the segments read so far (src/cutlist.go:212-215);
a segment with a zero time pair or a zero frame pair clears all segments and
breaks out (src/cutlist.go:240-244). -/
def readCutsAux (cuts : Nat → Option CutSection) :
    Nat → Nat → Bool → Bool → List Seg → List Seg × Bool × Bool
| 0, _, tb, fb, acc => (acc, tb, fb)
| fuel + 1, i, tb, fb, acc =>
  match cuts i with
  | none => (acc, tb, fb)
  | some sec =>
    -- src/cutlist.go:218-238: the presence of `start` sets `timeBased`, the
    -- presence of `startframe` sets `frameBased`; absent keys leave the
    -- zero value in the segment
    let tb' := tb || sec.start.isSome
    let fb' := fb || sec.startframe.isSome
    let sg : Seg := { timeStart := sec.start.getD 0, timeDur := sec.duration.getD 0,
                      frameStart := sec.startframe.getD 0,
                      frameDur := sec.durationframes.getD 0 }
    -- src/cutlist.go:240-244: insufficient information
    if (sg.timeStart = 0 && sg.timeDur = 0) || (sg.frameStart = 0 && sg.frameDur = 0) then
      ([], tb', fb')
    else
      readCutsAux cuts fuel (i + 1) tb' fb' (acc ++ [sg])

/-- The cut-reading loop, started at cut index 0 with clear flags
(src/cutlist.go:210-247). -/
def readCuts (cuts : Nat → Option CutSection) (numCuts : Nat) :
    List Seg × Bool × Bool :=
  readCutsAux cuts numCuts 0 false false []

/-- The per-candidate body of `fetchCutlistDetails` (src/cutlist.go:150-256):
fetch and decode the detail document, require the general section
(src/cutlist.go:176-179) and the `noofcuts` key (src/cutlist.go:203-206),
read the cuts, and reject the candidate when no segment survives
(src/cutlist.go:249-251).  `ratio`, `fps` and `app` are each optional
(src/cutlist.go:182-200).  A negative `noofcuts` runs the loop zero times. -/
def parseCandidate (id : String) (d : DetailOutcome) : Option Cutlist :=
  match d with
  | .netErr => none
  | .readErr => none
  | .iniErr => none
  | .doc dd =>
    match dd.general with
    | none => none
    | some g =>
      match g.noofcuts with
      | none => none
      | some nc =>
        let r := readCuts dd.cuts nc.toNat
        if r.1 = [] then none
        else some { id := id, app := g.app.getD "", ratio := g.ratio.getD "",
                    fps := g.fps.getD 0, timeBased := r.2.1, frameBased := r.2.2,
                    segs := r.1 }

/-- The candidate loop of `fetchCutlistDetails` (src/cutlist.go:115-264):
try each id in the given order; the first candidate whose detail document
parses into a nonempty segment list is returned, otherwise `none`.  `env`
gives the outcome of the network request for each id. -/
def fetchCutlistDetails (env : String → DetailOutcome) : List String → Option Cutlist
| [] => none
| id :: rest =>
  match parseCandidate id (env id) with
  | some cl => some cl
  | none => fetchCutlistDetails env rest

/-- The ids whose detail documents `fetchCutlistDetails` actually requests:
every id up to and including the first successful one
(the loop of src/cutlist.go:139-257 issues `http.Get` once per iteration
and breaks on success). -/
def fetchedIds (env : String → DetailOutcome) : List String → List String
| [] => []
| id :: rest =>
  id :: (if (parseCandidate id (env id)).isSome then [] else fetchedIds env rest)

/-- Whether a candidate id parses into a usable cutlist under `env`. -/
def goodCand (env : String → DetailOutcome) (id : String) : Bool :=
  (parseCandidate id (env id)).isSome

/-! ## The mkvmerge split string (src/cut.go:38-123, 176-198) -/

/-- Zero-pads a decimal string to width `w` (the `%02d` format of
src/cut.go:197 and the fixed six fractional digits of
`strconv.FormatFloat(f, 'f', 6, 64)`). -/
def padZero (w : Nat) (s : String) : String :=
  String.mk (List.replicate (w - s.length) '0') ++ s

/-- Embeds `timeStr` (src/cut.go:178-198) over exact rationals: format a
time in seconds as `HH:MM:SS.ssssss`.  `strconv.FormatFloat(f, 'f', 6, 64)`
renders the nearest decimal with six fractional digits; `round` realizes
that on ℚ.  The integer part is then split into hours, minutes and seconds
with Go's truncating integer division. -/
def timeStr (f : ℚ) : String :=
  let micros : Int := round (f * 1000000)
  let i : Int := micros.tdiv 1000000
  let frac : Nat := (micros.tmod 1000000).natAbs
  let hh : Int := i.tdiv 3600
  let i2 : Int := i - hh * 3600
  let mm : Int := i2.tdiv 60
  let ss : Int := i2 - mm * 60
  padZero 2 (toString hh) ++ ":" ++ padZero 2 (toString mm) ++ ":" ++
    padZero 2 (toString ss) ++ "." ++ padZero 6 (toString frac)

/-- The frame-range list of the `parts-frames:` split string
(src/cut.go:59-65): `frameStart-(frameStart+frameDur)` per segment, joined
with `,+` (`strconv.Itoa` is `toString` on `Int`). -/
def frameRangesStr (segs : List Seg) : String :=
  String.intercalate ",+"
    (segs.map fun sg => toString sg.frameStart ++ "-" ++ toString (sg.frameStart + sg.frameDur))

/-- The time-range list of the `parts:` split string (src/cut.go:66-75):
`timeStr(timeStart)-timeStr(timeStart+timeDur)` per segment, joined with `,+`. -/
def timeRangesStr (segs : List Seg) : String :=
  String.intercalate ",+"
    (segs.map fun sg => timeStr sg.timeStart ++ "-" ++ timeStr (sg.timeStart + sg.timeDur))

/-- The `--split` argument `callMKVmerge` builds (src/cut.go:56-75): frame
ranges when the cutlist is frame based, time ranges otherwise. -/
def splitStr (cl : Cutlist) : String :=
  if cl.frameBased then "parts-frames:" ++ frameRangesStr cl.segs
  else "parts:" ++ timeRangesStr cl.segs

/-! ## The cut stage and its join protocol (src/cut.go:145-174, src/videolist.go:144-188) -/

/-- State of one item's stage-group: the two producer goroutines
(`v.decode` or the synthetic success of src/videolist.go:172-175, and
`v.loadCutlist`), the capacity-2 channel `r` (src/videolist.go:154), and
the consuming `v.cut` goroutine (src/cut.go:145-174).  `chan` holds the
error payloads currently buffered in `r`, `recvd` the payloads `cut` has
received, `worked` whether `cut` got past the two receives, `invoked`
whether mkvmerge was started, `vid` the item record and `removed` the
paths passed to `os.Remove` so far. -/
structure CutPipeState where
  decSent : Bool
  aqSent : Bool
  chan : List (Option String)
  recvd : List (Option String)
  worked : Bool
  invoked : Bool
  vid : Video
  removed : List String

/-- Interleaving steps of one item's stage-group.  Parameters: `eD` is the
payload of the decode-stage (or synthetic) completion signal, `eA` that of
the cutlist-acquisition signal; `pre` is the item-record effect of
`v.preProcessing` (src/video.go:221-261, a file move), `preOk` whether it
succeeds; `mkvErr` the outcome of the mkvmerge invocation and `rf` whether
a cleanup `os.Remove` would fail. -/
inductive CutStep (cfg : Config) (rf : Bool) (pre : Video → Video) (preOk : Bool)
    (eD eA mkvErr : Option String) : CutPipeState → CutPipeState → Prop
| sendDec (s : CutPipeState) :
    s.decSent = false →
    CutStep cfg rf pre preOk eD eA mkvErr s
      { s with decSent := true, chan := s.chan ++ [eD] }
| sendAq (s : CutPipeState) :
    s.aqSent = false →
    CutStep cfg rf pre preOk eD eA mkvErr s
      { s with aqSent := true, chan := s.chan ++ [eA] }
| recv (s : CutPipeState) (e : Option String) (rest : List (Option String)) :
    s.chan = e :: rest →
    s.recvd.length < 2 →
    CutStep cfg rf pre preOk eD eA mkvErr s
      { s with chan := rest, recvd := s.recvd ++ [e] }
| run (s : CutPipeState) :
    s.worked = false →
    s.recvd = [none, none] →
    CutStep cfg rf pre preOk eD eA mkvErr s
      { s with
          worked := true
          invoked := preOk
          vid := if preOk then (postProcessing cfg rf (pre s.vid) mkvErr).1 else pre s.vid
          removed := s.removed ++
            (if preOk then (postProcessing cfg rf (pre s.vid) mkvErr).2.1 else []) }

/-- The initial state of an item's stage-group: nothing sent, channel
empty, nothing received, no work done, record as scanned. -/
def initCutState (v0 : Video) : CutPipeState :=
  { decSent := false, aqSent := false, chan := [], recvd := [], worked := false,
    invoked := false, vid := v0, removed := [] }

/-- Reachability of a stage-group state from the initial state of `v0`. -/
def CutReach (cfg : Config) (rf : Bool) (pre : Video → Video) (preOk : Bool)
    (eD eA mkvErr : Option String) (v0 : Video) (s : CutPipeState) : Prop :=
  Relation.ReflTransGen (CutStep cfg rf pre preOk eD eA mkvErr) (initCutState v0) s

/-- The multiset of completion signals emitted so far. -/
def sentSignals (eD eA : Option String) (s : CutPipeState) : List (Option String) :=
  (if s.decSent then [eD] else []) ++ (if s.aqSent then [eA] else [])

/-! ## The orchestrator's per-item run (src/videolist.go:110-188) -/

/-- The outcomes of an item's external interactions during one run:
whether decode's `preProcessing` succeeds, the decode tool's error, the
cutlist-acquisition error, whether cut's `preProcessing` succeeds, the
mkvmerge error, and whether cleanup `os.Remove` calls fail. -/
structure ItemOutcomes where
  decPreOk : Bool
  decErr : Option String
  aqErr : Option String
  preOk : Bool
  mkvErr : Option String
  removeFails : Bool

/-- The number of goroutines `videoList.process` spawns for one item
(src/videolist.go:145-176): none for an already-cut item
(src/videolist.go:147-149), otherwise `cut` and `loadCutlist`
(src/videolist.go:161-164) plus `decode` for an encoded item
(src/videolist.go:167-171). -/
def stagesSpawned (v : Video) : Nat :=
  if v.status = vidStatusCut then 0
  else 2 + (if v.status = vidStatusEnc then 1 else 0)

/-- The net effect of one item's stage-group in `videoList.process`
(src/videolist.go:145-176 together with `v.decode`, `v.cut`): the final
item record and the number of external tool invocations.  An already-cut
item is skipped entirely (src/videolist.go:147-149).  Otherwise: for an
encoded item the decode stage runs the decode tool and post-processes
(src/unnamed/part_006:122-149), for others a synthetic success signal is
emitted (src/videolist.go:172-175); the cut stage then joins on both
signals (src/cut.go:152-159), runs its `preProcessing` and, on success,
mkvmerge followed by `postProcessing` (src/cut.go:162-173).  The file
moves of `preProcessing` are not tracked here. -/
def orchestrate (cfg : Config) (o : ItemOutcomes) (v : Video) : Video × Nat :=
  if v.status = vidStatusCut then (v, 0)
  else
    let dec : Video × Nat × Option String :=
      if v.status = vidStatusEnc then
        if o.decPreOk = false then (v, 0, some "preProcessing failed")
        else ((postProcessing cfg o.removeFails v o.decErr).1, 1, o.decErr)
      else (v, 0, none)
    if dec.2.2.isSome || o.aqErr.isSome then (dec.1, dec.2.1)
    else if o.preOk = false then (dec.1, dec.2.1)
    else ((postProcessing cfg o.removeFails dec.1 o.mkvErr).1, dec.2.1 + 1)

/-! ## Concrete detail documents used in the theorems -/

/-- A cut section carrying only a complete time pair (no frame keys). -/
def timeOnlySection : CutSection :=
  { start := some 10, duration := some 20, startframe := none, durationframes := none }

/-- A detail document whose single declared segment carries only a
complete time pair. -/
def timeOnlyDoc : DetailDoc :=
  { general := some { ratio := none, fps := none, app := none, noofcuts := some 1 },
    cuts := fun i => if i = 0 then some timeOnlySection else none }

/-- A cut section carrying a complete time pair and a `durationframes` key
but no `startframe` key. -/
def durFramesSection : CutSection :=
  { start := some 10, duration := some 20, startframe := none, durationframes := some 50 }

/-- A detail document whose single declared segment carries a frame key
(`durationframes`) but no `startframe` key. -/
def durFramesDoc : DetailDoc :=
  { general := some { ratio := none, fps := none, app := none, noofcuts := some 1 },
    cuts := fun i => if i = 0 then some durFramesSection else none }

/-- A cut section carrying both a complete time pair and a complete frame
pair. -/
def fullSection : CutSection :=
  { start := some 10, duration := some 20, startframe := some 100, durationframes := some 500 }

/-- A detail document with one fully populated segment. -/
def fullDoc : DetailDoc :=
  { general := some { ratio := some "16:9", fps := some 25, app := none, noofcuts := some 1 },
    cuts := fun i => if i = 0 then some fullSection else none }

/-- The cutlist `fullDoc` parses into (under any candidate id `a`). -/
def fullCl : Cutlist :=
  { id := "a", app := "", ratio := "16:9", fps := 25, timeBased := true,
    frameBased := true, segs := [{ timeStart := 10, timeDur := 20,
                                   frameStart := 100, frameDur := 500 }] }

/-- The cutlist `durFramesDoc` parses into: the `durationframes` key alone
does not set `frameBased` (only `startframe` does, src/cutlist.go:229-233). -/
def durFramesCl : Cutlist :=
  { id := "X", app := "", ratio := "", fps := 0, timeBased := true,
    frameBased := false, segs := [{ timeStart := 10, timeDur := 20,
                                    frameStart := 0, frameDur := 50 }] }

/-- A concrete decoded-but-uncut item used to instantiate the stage-group
machine. -/
def wVid : Video :=
  { key := "k", status := vidStatusDec, res := vidResultNone, filePath := "/dec/k.mkv" }

/-- A concrete configuration with cleanup disabled. -/
def wCfg : Config := { doCleanUp := false, decDirPath := "/dec", cutDirPath := "/cut" }

/-- The stage-group state after both sends, both receives and the join
release, with `preOk = false` (so `cut` returned before invoking mkvmerge). -/
def w4Final : CutPipeState :=
  { decSent := true, aqSent := true, chan := [], recvd := [none, none],
    worked := true, invoked := false, vid := wVid, removed := [] }

/-- Invariant of the stage-group machine: the signals received plus the
signals still buffered are exactly the signals sent; `cut` only gets past
its receives after taking two error-free signals; mkvmerge is only started
after that; and before that the item record is untouched and nothing was
deleted. -/
def CutInv (eD eA : Option String) (v0 : Video) (s : CutPipeState) : Prop :=
  (s.recvd ++ s.chan).Perm (sentSignals eD eA s) ∧
  (s.worked = true → s.recvd = [none, none]) ∧
  (s.invoked = true → s.worked = true) ∧
  (s.worked = false → s.vid = v0 ∧ s.invoked = false ∧ s.removed = [])

/-! ## Theorems -/

/-- A successfully parsed candidate always carries at least one segment
(src/cutlist.go:249-251 skips candidates with an empty segment list). -/
theorem parseCandidate_segs_ne_nil (id : String) (d : DetailOutcome) (cl : Cutlist)
    (h : parseCandidate id d = some cl) : cl.segs ≠ [] := by
  cases d with
  | netErr => simp [parseCandidate] at h
  | readErr => simp [parseCandidate] at h
  | iniErr => simp [parseCandidate] at h
  | doc dd =>
    rcases hg : dd.general with _ | g
    · simp [parseCandidate, hg] at h
    · rcases hn : g.noofcuts with _ | nc
      · simp [parseCandidate, hg, hn] at h
      · by_cases hr : (readCuts dd.cuts nc.toNat).1 = []
        · simp [parseCandidate, hg, hn, hr] at h
        · simp [parseCandidate, hg, hn, hr] at h
          rw [← h]
          simpa using hr

/-- The candidate loop returns the parse of the first id accepted by
`goodCand` (src/cutlist.go:139-263). -/
theorem fetchCutlistDetails_eq_find (env : String → DetailOutcome) (ids : List String) :
    fetchCutlistDetails env ids
      = Option.bind (ids.find? (goodCand env)) (fun id => parseCandidate id (env id)) := by
  induction ids with
  | nil => rfl
  | cons id rest ih =>
    by_cases h : (parseCandidate id (env id)).isSome
    · obtain ⟨cl, hcl⟩ := Option.isSome_iff_exists.mp h
      rw [List.find?_cons_of_pos _ (by simp [goodCand, h])]
      simp [fetchCutlistDetails, hcl]
    · rw [List.find?_cons_of_neg _ (by simp [goodCand, h])]
      have hn : parseCandidate id (env id) = none := Option.not_isSome_iff_eq_none.mp h
      simp [fetchCutlistDetails, hn, ih]

/-- The loop requests detail documents exactly for the failing prefix plus
the first successful candidate (src/cutlist.go:139-263). -/
theorem fetchedIds_eq (env : String → DetailOutcome) (ids : List String) :
    fetchedIds env ids
      = ids.takeWhile (fun id => !(goodCand env id)) ++ (ids.find? (goodCand env)).toList := by
  induction ids with
  | nil => rfl
  | cons id rest ih =>
    by_cases h : (parseCandidate id (env id)).isSome
    · rw [List.find?_cons_of_pos _ (by simp [goodCand, h])]
      simp [fetchedIds, h, List.takeWhile, goodCand]
    · rw [List.find?_cons_of_neg _ (by simp [goodCand, h])]
      have hb : goodCand env id = false := by simp [goodCand, h]
      simp [fetchedIds, h, List.takeWhile, hb, ih]

/-- The `frameBased` flag produced by the cut-reading loop can only be set
by a `startframe` key in some cut section (src/cutlist.go:229-233). -/
theorem readCutsAux_frameBased_some (cuts : Nat → Option CutSection) :
    ∀ fuel i tb fb acc, (readCutsAux cuts fuel i tb fb acc).2.2 = true →
      fb = true ∨ ∃ j s, cuts j = some s ∧ s.startframe.isSome = true := by
  intro fuel
  induction fuel with
  | zero =>
    intro i tb fb acc h
    exact Or.inl h
  | succ n ih =>
    intro i tb fb acc h
    rcases hc : cuts i with _ | sec
    · rw [readCutsAux, hc] at h
      exact Or.inl h
    · rw [readCutsAux, hc] at h
      simp only at h
      by_cases hval : (((sec.start.getD 0 = 0 && sec.duration.getD 0 = 0) ||
          (sec.startframe.getD 0 = 0 && sec.durationframes.getD 0 = 0)) = true)
      · rw [if_pos hval] at h
        rcases Bool.or_eq_true _ _ |>.mp h with hfb | hsf
        · exact Or.inl hfb
        · exact Or.inr ⟨i, sec, hc, hsf⟩
      · rw [if_neg hval] at h
        rcases ih _ _ _ _ h with hfb | hex
        · rcases Bool.or_eq_true _ _ |>.mp hfb with hfb' | hsf
          · exact Or.inl hfb'
          · exact Or.inr ⟨i, sec, hc, hsf⟩
        · exact Or.inr hex

/-- If no cut section carries a `startframe` key, the cut-reading loop
leaves the `frameBased` flag unchanged (src/cutlist.go:229-233). -/
theorem readCutsAux_frameBased_none (cuts : Nat → Option CutSection)
    (hnone : ∀ j s, cuts j = some s → s.startframe = none) :
    ∀ fuel i tb fb acc, (readCutsAux cuts fuel i tb fb acc).2.2 = fb := by
  intro fuel
  induction fuel with
  | zero =>
    intro i tb fb acc
    rfl
  | succ n ih =>
    intro i tb fb acc
    rcases hc : cuts i with _ | sec
    · rw [readCutsAux, hc]
    · rw [readCutsAux, hc]
      simp only
      have hsf : sec.startframe = none := hnone i sec hc
      by_cases hval : (((sec.start.getD 0 = 0 && sec.duration.getD 0 = 0) ||
          (sec.startframe.getD 0 = 0 && sec.durationframes.getD 0 = 0)) = true)
      · rw [if_pos hval]
        simp [hsf]
      · rw [if_neg hval]
        rw [ih]
        simp [hsf]

/-- Inversion of `parseCandidate` on a decoded document: the general
section and the cut count are present, the cut loop produced a nonempty
segment list, and the returned cutlist carries exactly its output. -/
theorem parseCandidate_doc_inv (id : String) (dd : DetailDoc) (cl : Cutlist)
    (h : parseCandidate id (.doc dd) = some cl) :
    ∃ g nc, dd.general = some g ∧ g.noofcuts = some nc ∧
      (readCuts dd.cuts nc.toNat).1 ≠ [] ∧
      cl.segs = (readCuts dd.cuts nc.toNat).1 ∧
      cl.frameBased = (readCuts dd.cuts nc.toNat).2.2 := by
  rcases hg : dd.general with _ | g
  · simp [parseCandidate, hg] at h
  · rcases hn : g.noofcuts with _ | nc
    · simp [parseCandidate, hg, hn] at h
    · by_cases hr : (readCuts dd.cuts nc.toNat).1 = []
      · simp [parseCandidate, hg, hn, hr] at h
      · simp [parseCandidate, hg, hn, hr] at h
        exact ⟨g, nc, rfl, hn, hr, by rw [← h], by rw [← h]⟩

/-- The `sort.Sort` contract at the example input admits the non-stable
output order C, B, A. -/
theorem exRelCBA :
    fetchCutlistHeadersRel pfEx (HeaderNet.resp exToks false) ["C", "B", "A"] := by
  show headersOutRel (parseHeaders pfEx exToks) ["C", "B", "A"]
  refine ⟨[hdrC, hdrB, hdrA], ⟨?_, ?_⟩, ?_⟩
  · have hp : parseHeaders pfEx exToks = [hdrA, hdrB, hdrC] := by decide
    rw [hp]
    decide
  · decide
  · rfl

/-- The invariant holds initially. -/
theorem cutInv_init (eD eA : Option String) (v0 : Video) :
    CutInv eD eA v0 (initCutState v0) := by
  refine ⟨?_, ?_, ?_, ?_⟩ <;> simp [initCutState, sentSignals]

/-- The invariant is preserved by every step of the stage-group machine. -/
theorem cutInv_step (cfg : Config) (rf : Bool) (pre : Video → Video) (preOk : Bool)
    (eD eA mkvErr : Option String) (v0 : Video) (s s' : CutPipeState)
    (h : CutStep cfg rf pre preOk eD eA mkvErr s s') (hi : CutInv eD eA v0 s) :
    CutInv eD eA v0 s' := by
  obtain ⟨hperm, hwr, hiw, hnw⟩ := hi
  cases h with
  | sendDec hd =>
    refine ⟨?_, fun hw => hwr hw, fun hv => hiw hv, fun hw => hnw hw⟩
    have h1 : s.recvd ++ (s.chan ++ [eD]) = (s.recvd ++ s.chan) ++ [eD] := by
      rw [List.append_assoc]
    rw [h1]
    refine List.Perm.trans (hperm.append_right [eD]) ?_
    simp only [sentSignals, hd]
    simp
  | sendAq ha =>
    refine ⟨?_, fun hw => hwr hw, fun hv => hiw hv, fun hw => hnw hw⟩
    have h1 : s.recvd ++ (s.chan ++ [eA]) = (s.recvd ++ s.chan) ++ [eA] := by
      rw [List.append_assoc]
    rw [h1]
    refine List.Perm.trans (hperm.append_right [eA]) ?_
    simp [sentSignals, ha]
  | recv e rest hch hlen =>
    refine ⟨?_, ?_, fun hv => hiw hv, fun hw => hnw hw⟩
    · have h1 : (s.recvd ++ [e]) ++ rest = s.recvd ++ s.chan := by
        rw [List.append_assoc, List.singleton_append, ← hch]
      rw [h1]
      exact hperm
    · intro hw
      rw [hwr hw] at hlen
      simp at hlen
  | run hw0 hr2 =>
    refine ⟨hperm, fun _ => hr2, fun _ => rfl, ?_⟩
    intro hw
    simp at hw

/-- Every reachable state of the stage-group machine satisfies the
invariant. -/
theorem cutReach_inv (cfg : Config) (rf : Bool) (pre : Video → Video) (preOk : Bool)
    (eD eA mkvErr : Option String) (v0 : Video) (s : CutPipeState)
    (h : CutReach cfg rf pre preOk eD eA mkvErr v0 s) :
    CutInv eD eA v0 s := by
  induction h with
  | refl => exact cutInv_init eD eA v0
  | tail _ hstep ih => exact cutInv_step _ _ _ _ _ _ _ _ _ _ hstep ih

/-- Claim C4: for every item processed by the orchestrator, the apply-cuts
stage performs no work (in particular never invokes the external cut tool)
until it has received exactly two completion signals for that item — one
from the decode stage or its synthetic substitute, and one from the
cut-spec acquisition stage.  Formally: in every reachable state of an
item's stage-group in which `cut` has proceeded past its receives (or
mkvmerge was started), exactly two signals have been received and both
producer stages have emitted their completion signal. -/
theorem claim4_no_work_before_two_signals (cfg : Config) (rf : Bool)
    (pre : Video → Video) (preOk : Bool) (eD eA mkvErr : Option String)
    (v0 : Video) (s : CutPipeState)
    (h : CutReach cfg rf pre preOk eD eA mkvErr v0 s)
    (hw : s.worked = true ∨ s.invoked = true) :
    s.recvd.length = 2 ∧ s.decSent = true ∧ s.aqSent = true := by
  obtain ⟨hperm, hwr, hiw, _⟩ := cutReach_inv cfg rf pre preOk eD eA mkvErr v0 s h
  have hwt : s.worked = true := hw.elim id hiw
  have hr := hwr hwt
  have hrl : s.recvd.length = 2 := by rw [hr]; rfl
  have hlen2 : s.recvd.length + s.chan.length = (sentSignals eD eA s).length := by
    rw [← List.length_append]
    exact hperm.length_eq
  rw [hrl] at hlen2
  have hflags : s.decSent = true ∧ s.aqSent = true := by
    cases hd : s.decSent <;> cases ha : s.aqSent
    · exfalso; simp [sentSignals, hd, ha] at hlen2
    · exfalso; simp [sentSignals, hd, ha] at hlen2; omega
    · exfalso; simp [sentSignals, hd, ha] at hlen2; omega
    · exact ⟨rfl, rfl⟩
  exact ⟨hrl, hflags.1, hflags.2⟩

/-- Witness for C4: the concrete run send-send-receive-receive-release
reaches a released state with exactly two received signals and both
producers done. -/
theorem claim4_witness :
    w4Final.recvd.length = 2 ∧ w4Final.decSent = true ∧ w4Final.aqSent = true := by
  have t1 : CutStep wCfg false id false none none none (initCutState wVid)
      { decSent := true, aqSent := false, chan := [none], recvd := [],
        worked := false, invoked := false, vid := wVid, removed := [] } :=
    CutStep.sendDec _ rfl
  have t2 : CutStep wCfg false id false none none none
      { decSent := true, aqSent := false, chan := [none], recvd := [],
        worked := false, invoked := false, vid := wVid, removed := [] }
      { decSent := true, aqSent := true, chan := [none, none], recvd := [],
        worked := false, invoked := false, vid := wVid, removed := [] } :=
    CutStep.sendAq _ rfl
  have t3 : CutStep wCfg false id false none none none
      { decSent := true, aqSent := true, chan := [none, none], recvd := [],
        worked := false, invoked := false, vid := wVid, removed := [] }
      { decSent := true, aqSent := true, chan := [none], recvd := [none],
        worked := false, invoked := false, vid := wVid, removed := [] } :=
    CutStep.recv _ none [none] rfl (by decide)
  have t4 : CutStep wCfg false id false none none none
      { decSent := true, aqSent := true, chan := [none], recvd := [none],
        worked := false, invoked := false, vid := wVid, removed := [] }
      { decSent := true, aqSent := true, chan := [], recvd := [none, none],
        worked := false, invoked := false, vid := wVid, removed := [] } :=
    CutStep.recv _ none [] rfl (by decide)
  have t5 : CutStep wCfg false id false none none none
      { decSent := true, aqSent := true, chan := [], recvd := [none, none],
        worked := false, invoked := false, vid := wVid, removed := [] }
      w4Final :=
    CutStep.run _ rfl rfl
  have hreach : CutReach wCfg false id false none none none wVid w4Final :=
    Relation.ReflTransGen.tail
      (Relation.ReflTransGen.tail
        (Relation.ReflTransGen.tail
          (Relation.ReflTransGen.tail (Relation.ReflTransGen.single t1) t2) t3) t4) t5
  exact claim4_no_work_before_two_signals wCfg false id false none none none wVid
    w4Final hreach (Or.inl rfl)

/-- Claim C6: for every item whose apply-cuts stage receives two completion
signals of which at least one carries an error, the apply-cuts stage
returns without invoking the external cut tool and without changing the
item's status (the whole record, including the `res` field set by the
failing stage, is left untouched by `cut`, so the item's result reflects
the originating failure).  Formally: if one of the two signal payloads is
an error, no reachable state of the stage-group has invoked mkvmerge,
passed the join, modified the item record, or deleted a file. -/
theorem claim6_error_signal_skips_apply (cfg : Config) (rf : Bool)
    (pre : Video → Video) (preOk : Bool) (eD eA mkvErr : Option String)
    (v0 : Video) (s : CutPipeState)
    (herr : eD.isSome ∨ eA.isSome)
    (h : CutReach cfg rf pre preOk eD eA mkvErr v0 s) :
    s.invoked = false ∧ s.worked = false ∧ s.vid = v0 ∧ s.removed = [] := by
  obtain ⟨hperm, hwr, _, hnw⟩ := cutReach_inv cfg rf pre preOk eD eA mkvErr v0 s h
  have hw : s.worked = false := by
    cases hwf : s.worked with
    | false => rfl
    | true =>
      exfalso
      have hr := hwr hwf
      have hlen2 : s.recvd.length + s.chan.length = (sentSignals eD eA s).length := by
        rw [← List.length_append]
        exact hperm.length_eq
      have hrl : s.recvd.length = 2 := by rw [hr]; rfl
      rw [hrl] at hlen2
      have hd : s.decSent = true := by
        cases hd' : s.decSent
        · exfalso
          cases ha' : s.aqSent
          · simp [sentSignals, hd', ha'] at hlen2
          · simp [sentSignals, hd', ha'] at hlen2
            omega
        · rfl
      have ha : s.aqSent = true := by
        cases ha' : s.aqSent
        · exfalso
          simp [sentSignals, hd, ha'] at hlen2
          omega
        · rfl
      have hchan : s.chan = [] := by
        have h0 : (sentSignals eD eA s).length = 2 := by
          simp [sentSignals, hd, ha]
        rw [h0] at hlen2
        have h1 : s.chan.length = 0 := by omega
        exact List.length_eq_zero.mp h1
      have hperm2 : ([none, none] : List (Option String)).Perm [eD, eA] := by
        have hp := hperm
        rw [hr, hchan] at hp
        simpa [sentSignals, hd, ha] using hp
      have hDn : eD = none := by
        have hm : eD ∈ ([none, none] : List (Option String)) :=
          hperm2.symm.subset (by simp)
        simpa using hm
      have hAn : eA = none := by
        have hm : eA ∈ ([none, none] : List (Option String)) :=
          hperm2.symm.subset (by simp)
        simpa using hm
      rcases herr with hS | hS
      · rw [hDn] at hS
        simp at hS
      · rw [hAn] at hS
        simp at hS
  obtain ⟨hv, hinv, hrem⟩ := hnw hw
  exact ⟨hinv, hw, hv, hrem⟩

/-- Witness for C6: with a failed decode signal, the state reached after
that signal is emitted has no tool invocation and an untouched record. -/
theorem claim6_witness :
    let s1 : CutPipeState :=
      { decSent := true, aqSent := false, chan := [some "decode failed"], recvd := [],
        worked := false, invoked := false, vid := wVid, removed := [] }
    s1.invoked = false ∧ s1.worked = false ∧ s1.vid = wVid ∧ s1.removed = [] :=
  claim6_error_signal_skips_apply wCfg false id true (some "decode failed") none none
    wVid _ (Or.inl rfl)
    (Relation.ReflTransGen.single (CutStep.sendDec _ rfl))

/-- Claim C1, counterexample: `fetchCutlistHeaders` sorts with `sort.Sort`
(src/cutlist.go:360), whose contract does not include stability, so at the
spec's example input `[{A,5},{B,9},{C,9}]` the code also admits the output
C, B, A, which differs from the stable order B, C, A the claim demands. -/
theorem claim1_counterexample :
    fetchCutlistHeadersRel pfEx (HeaderNet.resp exToks false) ["C", "B", "A"] ∧
    (["C", "B", "A"] : List String) ≠ ["B", "C", "A"] :=
  ⟨exRelCBA, by decide⟩

/-- Claim C1, amended: `fetchCutlistHeaders` returns a permutation of the
parsed candidate ids ordered descending by score; the relative order of
equal-score candidates is NOT specified (`sort.Sort` is unstable), so at
the example input the result is B, C, A or C, B, A. -/
theorem claim1_sorted_permutation :
    (∀ (pf : String → ℚ) (toks : List XTok) (out : List String),
        fetchCutlistHeadersRel pf (HeaderNet.resp toks false) out →
        out.Perm ((parseHeaders pf toks).map ClHeader.id)) ∧
    (∀ out : List String,
        fetchCutlistHeadersRel pfEx (HeaderNet.resp exToks false) out →
        out = ["B", "C", "A"] ∨ out = ["C", "B", "A"]) := by
  constructor
  · intro pf toks out hrel
    obtain ⟨hs', ⟨hperm, _⟩, rfl⟩ := hrel
    exact hperm.map ClHeader.id
  · intro out hrel
    obtain ⟨hs', ⟨hperm, hsort⟩, rfl⟩ := hrel
    have hp : parseHeaders pfEx exToks = [hdrA, hdrB, hdrC] := by decide
    rw [hp] at hperm
    have hlen : hs'.length = 3 := by rw [hperm.length_eq]; rfl
    obtain ⟨x, y, z, rfl⟩ := List.length_eq_three.mp hlen
    have hx : x ∈ [hdrA, hdrB, hdrC] := hperm.subset (by simp)
    have hy : y ∈ [hdrA, hdrB, hdrC] := hperm.subset (by simp)
    have hz : z ∈ [hdrA, hdrB, hdrC] := hperm.subset (by simp)
    simp only [List.mem_cons, List.not_mem_nil, or_false] at hx hy hz
    rcases hx with rfl | rfl | rfl <;> rcases hy with rfl | rfl | rfl <;>
        rcases hz with rfl | rfl | rfl <;>
      first
      | exact absurd hperm (by decide)
      | exact absurd hsort (by decide)
      | exact Or.inl rfl
      | exact Or.inr rfl

/-- Witness for C1 (amended): both parts applied at the example input and
the admitted output C, B, A. -/
theorem claim1_witness :
    (["C", "B", "A"] : List String).Perm ((parseHeaders pfEx exToks).map ClHeader.id) ∧
    ((["C", "B", "A"] : List String) = ["B", "C", "A"] ∨
      (["C", "B", "A"] : List String) = ["C", "B", "A"]) :=
  ⟨claim1_sorted_permutation.1 pfEx exToks ["C", "B", "A"] exRelCBA,
   claim1_sorted_permutation.2 ["C", "B", "A"] exRelCBA⟩

/-- Claim C2 (code bug): the claim — and the validity rule of the spec's
data model — says a segment carrying at least one complete pair (time or
frame) is valid.  The condition at src/cutlist.go:240 instead rejects a
segment when its time pair is zero OR its frame pair is zero, i.e. it
demands BOTH pairs; a candidate whose single declared segment carries a
complete time pair (start=10, duration=20) and no frame keys is therefore
rejected, and a candidate list offering only that candidate yields no
cutlist at all. -/
theorem claim2_time_only_candidate_rejected :
    parseCandidate "X" (DetailOutcome.doc timeOnlyDoc) = none ∧
    fetchCutlistDetails (fun _ => DetailOutcome.doc timeOnlyDoc) ["X"] = none := by
  constructor
  · rfl
  · rfl

/-- Claim C3 (code bug): scanning `(key=K, status=Raw)` then
`(key=K, status=Cut)` with cleanup enabled yields exactly one catalog item
for K with status Cut and the Cut file's path — but `os.Remove` is never
called, so the Raw-status file is NOT removed from disk: in
`video.updateFromFile` (src/video.go:337-350) the deletion sits only in
the else-branch (new file loses), while the winning branch taken here
(old status ENC, new status CUT) deletes nothing, contradicting the
function's own doc comment (src/video.go:323-328: "in addtion the encoded
version of the video is deleted"). -/
theorem claim3_merge_lacks_cleanup_of_loser :
    (scanFile { doCleanUp := true, decDirPath := "/w/Decoded", cutDirPath := "/w/Cut" }
        [] "K" vidStatusEnc "/w/Encoded/K.avi").1
      = [("K", { key := "K", status := vidStatusEnc, res := vidResultNone,
                 filePath := "/w/Encoded/K.avi" })] ∧
    scanFile { doCleanUp := true, decDirPath := "/w/Decoded", cutDirPath := "/w/Cut" }
        [("K", { key := "K", status := vidStatusEnc, res := vidResultNone,
                 filePath := "/w/Encoded/K.avi" })] "K" vidStatusCut "/w/Cut/K.cut.avi"
      = ([("K", { key := "K", status := vidStatusCut, res := vidResultNone,
                  filePath := "/w/Cut/K.cut.avi" })], []) := by
  constructor
  · rfl
  · rfl

/-- Claim C5: for every ordered list of candidate ids,
`fetchCutlistDetails` returns the cut specification parsed from the first
candidate in the given order that yields at least one valid segment
(unreachable, undecodable or otherwise unparsable candidates yield no
segments and are skipped); once a candidate succeeds no later candidate is
fetched, and if no candidate succeeds the result is `none`.  Formally: the
result is the parse of the first id accepted by `goodCand` (so `none` when
there is none), the ids actually fetched are exactly the failing prefix
plus the first successful id, and every success carries at least one
segment. -/
theorem claim5_first_valid_candidate (env : String → DetailOutcome) (ids : List String) :
    fetchCutlistDetails env ids
      = Option.bind (ids.find? (goodCand env)) (fun id => parseCandidate id (env id)) ∧
    fetchedIds env ids
      = ids.takeWhile (fun id => !(goodCand env id)) ++ (ids.find? (goodCand env)).toList ∧
    ∀ id cl, parseCandidate id (env id) = some cl → cl.segs ≠ [] :=
  ⟨fetchCutlistDetails_eq_find env ids, fetchedIds_eq env ids,
   fun id cl h => parseCandidate_segs_ne_nil id (env id) cl h⟩

/-- Witness for C5: with every candidate resolving to `fullDoc`, the first
candidate wins, the second is never fetched, and the returned spec has a
segment. -/
theorem claim5_witness :
    fetchCutlistDetails (fun _ => DetailOutcome.doc fullDoc) ["a", "b"] = some fullCl ∧
    fetchedIds (fun _ => DetailOutcome.doc fullDoc) ["a", "b"] = ["a"] ∧
    fullCl.segs ≠ [] := by
  have h := claim5_first_valid_candidate (fun _ => DetailOutcome.doc fullDoc) ["a", "b"]
  refine ⟨?_, ?_, h.2.2 "a" fullCl rfl⟩
  · rw [h.1]
    rfl
  · rw [h.2.1]
    rfl

/-- Claim C7: for every video and every error outcome of an external
decode or cut tool invocation, `postProcessing` with a non-nil error sets
the item's result to Error and leaves its status and file path unchanged;
no cleanup deletion happens and no error is returned on that branch
(src/video.go:166-169). -/
theorem claim7_postprocessing_error_branch (cfg : Config) (rf : Bool) (v : Video)
    (vErr : Option String) (h : vErr.isSome = true) :
    (postProcessing cfg rf v vErr).1.res = vidResultErr ∧
    (postProcessing cfg rf v vErr).1.status = v.status ∧
    (postProcessing cfg rf v vErr).1.filePath = v.filePath ∧
    (postProcessing cfg rf v vErr).2.1 = [] ∧
    (postProcessing cfg rf v vErr).2.2 = none := by
  simp [postProcessing, h]

/-- Witness for C7 at a concrete video and error. -/
theorem claim7_witness :
    (postProcessing wCfg false wVid (some "tool failed")).1.res = vidResultErr ∧
    (postProcessing wCfg false wVid (some "tool failed")).1.status = wVid.status ∧
    (postProcessing wCfg false wVid (some "tool failed")).1.filePath = wVid.filePath ∧
    (postProcessing wCfg false wVid (some "tool failed")).2.1 = [] ∧
    (postProcessing wCfg false wVid (some "tool failed")).2.2 = none :=
  claim7_postprocessing_error_branch wCfg false wVid (some "tool failed") rfl

/-- Claim C8: a network failure, a read failure, or an XML decoding
failure makes `fetchCutlistHeaders` return an empty candidate list rather
than signalling an error or crashing (src/cutlist.go:295-317: each failure
path returns the still-empty `ids` slice). -/
theorem claim8_header_fetch_failure_empty (pf : String → ℚ) (net : HeaderNet)
    (out : List String) (hfail : headerFetchFails net)
    (hrel : fetchCutlistHeadersRel pf net out) : out = [] := by
  cases net with
  | getErr => exact hrel
  | readErr => exact hrel
  | resp toks derr =>
    cases derr with
    | false => exact absurd hfail (by simp [headerFetchFails])
    | true => exact hrel

/-- Witness for C8 at the network-failure outcome. -/
theorem claim8_witness :
    headerFetchFails HeaderNet.getErr ∧ ([] : List String) = [] :=
  ⟨trivial, claim8_header_fetch_failure_empty (fun _ => 0) HeaderNet.getErr [] trivial rfl⟩

/-- Claim C9: for every item whose status is Cut at scan time, the
orchestrator's process run spawns no stage for it, invokes no external
tool on it, and leaves its result field as recorded
(src/videolist.go:147-149). -/
theorem claim9_cut_items_excluded (cfg : Config) (o : ItemOutcomes) (v : Video)
    (h : v.status = vidStatusCut) :
    stagesSpawned v = 0 ∧ orchestrate cfg o v = (v, 0) := by
  constructor
  · simp [stagesSpawned, h]
  · simp [orchestrate, h]

/-- Witness for C9 at a concrete already-cut item. -/
theorem claim9_witness :
    stagesSpawned { key := "k", status := vidStatusCut, res := vidResultOK,
                    filePath := "/w/Cut/k.cut.mkv" } = 0 ∧
    orchestrate wCfg
        { decPreOk := true, decErr := none, aqErr := none, preOk := true,
          mkvErr := none, removeFails := false }
        { key := "k", status := vidStatusCut, res := vidResultOK,
          filePath := "/w/Cut/k.cut.mkv" }
      = ({ key := "k", status := vidStatusCut, res := vidResultOK,
           filePath := "/w/Cut/k.cut.mkv" }, 0) :=
  claim9_cut_items_excluded _ _ _ rfl

/-- Claim C10, counterexample: the claim keys frame-range splitting to
"at least one segment carried a frame key", but `frameBased` is set only
by the `startframe` key (src/cutlist.go:229-233).  A candidate whose
single segment carries the frame key `durationframes` (but no
`startframe`) parses successfully with `frameBased = false`, and
`callMKVmerge` builds a time-range `parts:` split for it (src/cut.go:66-75)
— not the frame-range `parts-frames:` split the claim requires. -/
theorem claim10_counterexample :
    parseCandidate "X" (DetailOutcome.doc durFramesDoc) = some durFramesCl ∧
    (∃ j sec, durFramesDoc.cuts j = some sec ∧ sec.durationframes.isSome = true) ∧
    durFramesCl.frameBased = false ∧
    splitStr durFramesCl = "parts:" ++ timeRangesStr durFramesCl.segs ∧
    splitStr durFramesCl ≠ "parts-frames:" ++ frameRangesStr durFramesCl.segs := by
  refine ⟨rfl, ⟨0, durFramesSection, rfl, rfl⟩, rfl, rfl, ?_⟩
  decide

/-- Claim C10, amended: the cut tool is invoked with the frame-range
`parts-frames:` split exactly when the parsed specification's `frameBased`
flag is set, which happens iff some cut section carried the `startframe`
key (a `durationframes` key alone does not count); otherwise the
time-range `parts:` split is used, even if segments carried
`durationframes`. -/
theorem claim10_frame_split_iff_startframe (id : String) (dd : DetailDoc) (cl : Cutlist)
    (h : parseCandidate id (.doc dd) = some cl) :
    (cl.frameBased = true →
        splitStr cl = "parts-frames:" ++ frameRangesStr cl.segs ∧
        ∃ j sec, dd.cuts j = some sec ∧ sec.startframe.isSome = true) ∧
    (cl.frameBased = false → splitStr cl = "parts:" ++ timeRangesStr cl.segs) ∧
    ((∀ j sec, dd.cuts j = some sec → sec.startframe = none) → cl.frameBased = false) := by
  obtain ⟨g, nc, hg, hn, hr, hsegs, hfb⟩ := parseCandidate_doc_inv id dd cl h
  refine ⟨?_, ?_, ?_⟩
  · intro hfbt
    refine ⟨by simp [splitStr, hfbt], ?_⟩
    rw [hfb] at hfbt
    simp only [readCuts] at hfbt
    rcases readCutsAux_frameBased_some dd.cuts nc.toNat 0 false false [] hfbt with hfb0 | hex
    · exact absurd hfb0 (by simp)
    · exact hex
  · intro hfbf
    simp [splitStr, hfbf]
  · intro hnone
    rw [hfb]
    simp only [readCuts]
    exact readCutsAux_frameBased_none dd.cuts hnone nc.toNat 0 false false []

/-- Witness for C10 (amended) at `fullDoc`, whose segment carries
`startframe`: the frame-range split is used. -/
theorem claim10_witness :
    fullCl.frameBased = true ∧
    splitStr fullCl = "parts-frames:" ++ frameRangesStr fullCl.segs ∧
    (∃ j sec, fullDoc.cuts j = some sec ∧ sec.startframe.isSome = true) := by
  have h := (claim10_frame_split_iff_startframe "a" fullDoc fullCl rfl).1 rfl
  exact ⟨rfl, h.1, h.2⟩
